import Mathlib

/-!
Verification of the geometric and batch-processing utilities of the
`switzerland_nationwide_rock_detection` repository.

The Python scripts are shallowly embedded in Lean:
* floating-point coordinates become exact rationals (`ℚ`); the one place the
  code takes a square root (`np.sqrt` in `boxes_are_duplicates`) is embedded
  over the reals via `Real.sqrt`;
* shapely box geometries become axis-aligned rectangles (`Rect`); for the
  rectangles the scripts build (sorted corner coordinates), polygon area,
  intersection area and union area have the closed forms used below;
* file-system and network effects become explicit function arguments
  (a map from path to file contents, a map from attempt number to response).

The file is organized as: all definitions first, then all lemmas and the
claim theorems.  Each definition names the script file it is translated from.
-/

namespace RockDetect

/-! ## Definitions -/

/-! ### Shared geometry: shapely box geometries

A shapely `box(minx, miny, maxx, maxy)` is an axis-aligned rectangle.
`shapelyArea` is the area shapely reports for such a polygon (the absolute
value of the signed ring area).  For rectangles with sorted corners — the only
ones the scripts construct (`yolo_to_shapefile.py` sorts the corner
coordinates before calling `box`, and shapefile-loaded geometries have sorted
bounds) — `interArea` is the area of the shapely intersection and
`unionArea` the area of the shapely union (inclusion–exclusion). -/

structure Rect where
  minx : ℚ
  miny : ℚ
  maxx : ℚ
  maxy : ℚ
deriving DecidableEq

def shapelyArea (r : Rect) : ℚ :=
  |r.maxx - r.minx| * |r.maxy - r.miny|

def interArea (a b : Rect) : ℚ :=
  max 0 (min a.maxx b.maxx - max a.minx b.minx) *
    max 0 (min a.maxy b.maxy - max a.miny b.miny)

def unionArea (a b : Rect) : ℚ :=
  shapelyArea a + shapelyArea b - interArea a b

namespace ListDupPairs

/-- From `scripts/analysis/list_duplicate_pairs.py`, lines 9–13:
`intersection / union if union > 0 else 0.0`. -/
def compute_iou_shapely (box1 box2 : Rect) : ℚ :=
  if unionArea box1 box2 > 0 then interArea box1 box2 / unionArea box1 box2 else 0

end ListDupPairs

namespace YoloToShapefile

/-- From `scripts/postprocessing/yolo_to_shapefile.py`, lines 20–24:
`intersection / union if union > 0 else 0.0`. -/
def compute_iou_shapely (box1 box2 : Rect) : ℚ :=
  if unionArea box1 box2 > 0 then interArea box1 box2 / unionArea box1 box2 else 0

end YoloToShapefile

namespace VisDupPairs

/-- From `scripts/analysis/visualize_duplicate_pairs.py`, lines 15–19:
`intersection / union if union > 0 else 0.0`. -/
def compute_iou_shapely (box1 box2 : Rect) : ℚ :=
  if unionArea box1 box2 > 0 then interArea box1 box2 / unionArea box1 box2 else 0

end VisDupPairs

/-! ### `scripts/analysis/duplicate_suppression/find_duplicates_from_labels.py` -/

/-- A YOLO label line `cls cx cy w h` with normalized coordinates. -/
structure YoloBox where
  cls : ℤ
  cx : ℚ
  cy : ℚ
  w : ℚ
  h : ℚ
deriving DecidableEq

namespace FindDupLabels

/-- From `find_duplicates_from_labels.py`, lines 41–69.  Converts patch-local
normalized coordinates to global tile pixel coordinates.  The Python defaults
are `patch_size=640`, `overlap=210`; callers below pass them explicitly. -/
def box_to_global_coords (box : YoloBox) (patch_row patch_col : ℤ)
    (patch_size overlap : ℚ) : ℚ × ℚ × ℚ × ℚ :=
  let px_local := box.cx * patch_size
  let py_local := box.cy * patch_size
  let w_pixels := box.w * patch_size
  let h_pixels := box.h * patch_size
  let stride := patch_size - overlap
  (px_local + patch_col * stride, py_local + patch_row * stride, w_pixels, h_pixels)

/-- From `find_duplicates_from_labels.py`, lines 72–89.  The first component
is the truth value the Python function returns as its `is_duplicate` boolean,
the second is the returned center distance `np.sqrt((cx1-cx2)**2 + (cy1-cy2)**2)`.
The Python default threshold is `15.0`; callers below pass it explicitly. -/
noncomputable def boxes_are_duplicates (box1_global box2_global : ℚ × ℚ × ℚ × ℚ)
    (distance_threshold : ℝ) : Prop × ℝ :=
  let cx1 := box1_global.1
  let cy1 := box1_global.2.1
  let cx2 := box2_global.1
  let cy2 := box2_global.2.1
  let distance := Real.sqrt (((cx1 : ℝ) - (cx2 : ℝ)) ^ 2 + ((cy1 : ℝ) - (cy2 : ℝ)) ^ 2)
  (distance < distance_threshold, distance)

end FindDupLabels

/-! ### NMS from `scripts/postprocessing/yolo_to_shapefile.py`, lines 27–65 -/

/-- One row of the detections GeoDataFrame: a box geometry and a score. -/
structure Detection where
  geom : Rect
  score : ℚ
deriving DecidableEq

namespace YoloToShapefile

/-- The descending-score order used by `gdf.sort_values('score', ascending=False)`. -/
def scoreDesc (a b : Detection) : Prop := b.score ≤ a.score

instance : DecidableRel scoreDesc := fun a b => inferInstanceAs (Decidable (b.score ≤ a.score))

instance : IsTotal Detection scoreDesc := ⟨fun a b => le_total b.score a.score⟩

instance : IsTrans Detection scoreDesc := ⟨fun _ _ _ h1 h2 => le_trans h2 h1⟩

/-- The suppression loop of `nms_geospatial`: walk the score-sorted rows;
an unsuppressed row `i` is appended to `keep_indices` and every later row `j`
with `compute_iou_shapely(box_i, box_j) > iou_threshold` is added to
`suppressed`.  Since `suppressed` only ever affects rows after the current
one, the loop is the recursion: keep the first remaining row and drop the
later rows it suppresses. -/
def nmsKeep (iou_threshold : ℚ) : List Detection → List Detection
  | [] => []
  | d :: rest =>
    d :: nmsKeep iou_threshold
        (rest.filter fun e => decide (¬ iou_threshold < compute_iou_shapely d.geom e.geom))
termination_by l => l.length
decreasing_by
  simp only [List.length_cons]
  exact Nat.lt_succ_of_le (List.length_filter_le _ _)

/-- From `yolo_to_shapefile.py`, lines 27–65: return the input unchanged when
empty, otherwise sort by score descending and run the suppression loop. -/
def nms_geospatial (gdf : List Detection) (iou_threshold : ℚ) : List Detection :=
  if gdf.length = 0 then gdf
  else nmsKeep iou_threshold (gdf.insertionSort scoreDesc)

end YoloToShapefile

/-! ### `scripts/analysis/data_augmentation/analyze_training_distribution.py`
and `create_augmented_dataset.py` -/

/-- The four density categories of `categorize_images`. -/
inductive RockCat where
  | emptyCat
  | sparse
  | medium
  | dense
deriving DecidableEq

/-- The four category lists built by `categorize_images`. -/
structure Categories where
  emptyCat : List String
  sparse : List String
  medium : List String
  dense : List String
deriving DecidableEq

namespace AnalyzeDist

/-- The if-chain of `categorize_images` (`analyze_training_distribution.py`,
lines 34–42): `count == 0` → empty, `count <= 3` → sparse, `count <= 10` →
medium, else dense. -/
def catOf (count : ℕ) : RockCat :=
  if count = 0 then .emptyCat
  else if count ≤ 3 then .sparse
  else if count ≤ 10 then .medium
  else .dense

/-- Append one image name to the category list its rock count selects. -/
def addToCategory (cats : Categories) (img : String) (count : ℕ) : Categories :=
  match catOf count with
  | .emptyCat => ⟨cats.emptyCat ++ [img], cats.sparse, cats.medium, cats.dense⟩
  | .sparse => ⟨cats.emptyCat, cats.sparse ++ [img], cats.medium, cats.dense⟩
  | .medium => ⟨cats.emptyCat, cats.sparse, cats.medium ++ [img], cats.dense⟩
  | .dense => ⟨cats.emptyCat, cats.sparse, cats.medium, cats.dense ++ [img]⟩

/-- From `analyze_training_distribution.py`, lines 25–44: start from four
empty lists and append each image to the category its count selects. -/
def categorize_images (rock_counts : List (String × ℕ)) : Categories :=
  rock_counts.foldl (fun cats p => addToCategory cats p.1 p.2) ⟨[], [], [], []⟩

end AnalyzeDist

namespace CreateAug

/-- The category/augmentation-factor if-chain of `create_augmented_dataset.py`
`main`, lines 159–170: 0 rocks → (empty, 3), 1–3 → (sparse, 5), 4–10 →
(medium, 2), 11+ → (dense, 0). -/
def augFactorAssignment (rock_count : ℕ) : RockCat × ℕ :=
  if rock_count = 0 then (.emptyCat, 3)
  else if rock_count ≤ 3 then (.sparse, 5)
  else if rock_count ≤ 10 then (.medium, 2)
  else (.dense, 0)

end CreateAug

/-! ### String helpers modelling the Python built-ins used by
`parse_patch_name` (both copies: `find_duplicates_from_labels.py` lines 12–25
and `duplicate_suppression/visualize_duplicate_pairs.py` lines 15–25). -/

/-- Does `pat` start the list?  (Structural, so kernel-reducible.) -/
def startsWith : List Char → List Char → Bool
  | [], _ => true
  | _ :: _, [] => false
  | p :: ps, c :: cs => p = c && startsWith ps cs

/-- Fuel-indexed body of Python `str.replace`: scan left to right, replace
each non-overlapping occurrence of `pat`, continue after the replacement.
The fuel is only a structural-recursion device; `s.length` fuel always
suffices because every step consumes at least one character of `s`. -/
def replaceAllFuel (pat rep : List Char) : ℕ → List Char → List Char
  | 0, s => s
  | _ + 1, [] => []
  | fuel + 1, c :: rest =>
    if startsWith pat (c :: rest) then
      rep ++ replaceAllFuel pat rep fuel ((c :: rest).drop pat.length)
    else c :: replaceAllFuel pat rep fuel rest

/-- Python `s.replace(pat, rep)` for a non-empty `pat` (the scripts only use
the patterns `'.txt'` and `'.tif'`). -/
def pyReplace (s pat rep : List Char) : List Char :=
  if pat = [] then s else replaceAllFuel pat rep s.length s

/-- Python `s.split(sep)` for a one-character separator: keeps empty chunks,
`''.split(sep) == ['']`. -/
def splitOnChar (sep : Char) : List Char → List (List Char)
  | [] => [[]]
  | c :: rest =>
    if c = sep then [] :: splitOnChar sep rest
    else
      match splitOnChar sep rest with
      | [] => [[c]]
      | g :: gs => (c :: g) :: gs

/-- Strip leading and trailing whitespace (Python `int` ignores surrounding
whitespace). -/
def pyStrip (s : List Char) : List Char :=
  ((s.dropWhile Char.isWhitespace).reverse.dropWhile Char.isWhitespace).reverse

/-- Decimal digit run to a number; `none` when empty or a non-digit occurs. -/
def digitsToNat (ds : List Char) : Option ℕ :=
  if ds = [] then none
  else if ds.all Char.isDigit then
    some (ds.foldl (fun acc c => 10 * acc + (c.toNat - ('0' : Char).toNat)) 0)
  else none

/-- Python `int(s)` on a string: optional surrounding whitespace, optional
sign, then a non-empty digit run; `none` models the `ValueError` raise.
(Underscore digit grouping cannot occur here — the inputs are pieces of a
`split('_')` — and non-ASCII digits are not modelled.) -/
def pyIntOfString (s : List Char) : Option ℤ :=
  match pyStrip s with
  | '+' :: ds => (digitsToNat ds).map (fun n => (n : ℤ))
  | '-' :: ds => (digitsToNat ds).map (fun n => -(n : ℤ))
  | ds => (digitsToNat ds).map (fun n => (n : ℤ))

/-- Result of `parse_patch_name`: either the `(None, None, None)` triple or a
parsed `(tile_id, row, col)`. -/
inductive ParsedPatch where
  | noneTriple : ParsedPatch
  | parsed (tile : List Char) (row col : ℤ) : ParsedPatch
deriving DecidableEq

instance : DecidableEq (Except Unit ParsedPatch) := fun a b =>
  match a, b with
  | .error (), .error () => isTrue rfl
  | .ok x, .ok y =>
    if h : x = y then isTrue (congrArg Except.ok h)
    else isFalse (fun hx => h (Except.ok.inj hx))
  | .error (), .ok _ => isFalse (fun h => Except.noConfusion h)
  | .ok _, .error () => isFalse (fun h => Except.noConfusion h)

namespace FindDupLabels

/-- The stem parts: strip `'.txt'` then `'.tif'` (all occurrences, as Python
`str.replace` does), then split on `'_'`. -/
def patchParts (filename : List Char) : List (List Char) :=
  splitOnChar '_' (pyReplace (pyReplace filename ".txt".toList []) ".tif".toList [])

/-- From `find_duplicates_from_labels.py`, lines 12–25 (the copy in
`duplicate_suppression/visualize_duplicate_pairs.py`, lines 15–25, is
textually identical).  `Except.error ()` models the uncaught `ValueError`
raised by `int(...)` on a non-numeric part. -/
def parse_patch_name (filename : List Char) : Except Unit ParsedPatch :=
  let parts := patchParts filename
  if 4 ≤ parts.length then
    match pyIntOfString (parts.getD 2 []), pyIntOfString (parts.getD 3 []) with
    | some row, some col =>
      .ok (.parsed (parts.getD 0 [] ++ '_' :: parts.getD 1 []) row col)
    | _, _ => .error ()
  else .ok .noneTriple

end FindDupLabels

/-! ### The duplicate-finding pipeline of `find_duplicates_from_labels.py`
`main`, lines 125–165 -/

/-- One label file of a tile: its file name, its grid position from
`parse_patch_name`, and its YOLO boxes. -/
structure Patch where
  img : String
  row : ℤ
  col : ℤ
  boxes : List YoloBox

/-- One entry of the `duplicates_in_tile` dictionaries. -/
structure DupRec where
  img1 : String
  img2 : String
  box1 : YoloBox
  box2 : YoloBox
  global1 : ℚ × ℚ × ℚ × ℚ
  global2 : ℚ × ℚ × ℚ × ℚ
  distance : ℝ

namespace FindDupLabels

/-- The index pattern `for i: for j in range(i+1, ...)` over the patch list. -/
def tilePatchPairs : List Patch → List (Patch × Patch)
  | [] => []
  | p :: rest => rest.map (fun q => (p, q)) ++ tilePatchPairs rest

open Classical in
/-- The per-tile duplicate search (lines 130–165): skip tiles with fewer than
two patches, otherwise compare every box pair of every patch pair, converting
with the default `patch_size=640`, `overlap=210` and testing with the default
`distance_threshold=15.0`. -/
noncomputable def findTileDuplicates (patches : List Patch) : List DupRec :=
  if patches.length < 2 then []
  else
    (tilePatchPairs patches).flatMap (fun pq =>
      pq.1.boxes.flatMap (fun b1 =>
        pq.2.boxes.filterMap (fun b2 =>
          let g1 := box_to_global_coords b1 pq.1.row pq.1.col 640 210
          let g2 := box_to_global_coords b2 pq.2.row pq.2.col 640 210
          let res := boxes_are_duplicates g1 g2 15
          if res.1 then some ⟨pq.1.img, pq.2.img, b1, b2, g1, g2, res.2⟩ else none)))

/-- The whole duplicate scan of `main`: the tiles (already grouped by tile id
and sorted, as `main` does with its `defaultdict` and `sorted`) are processed
one after the other and their duplicate records concatenated. -/
noncomputable def findDuplicatesFromLabels (tiles : List (String × List Patch)) : List DupRec :=
  tiles.flatMap (fun t => findTileDuplicates t.2)

end FindDupLabels

/-! ### The two downloader scripts: `scripts/download_tiles.py` (lines 11–35)
and `scripts/preprocessing/download_tiles.py` (lines 57–80) -/

/-- A file system: path to file contents (bytes), `none` when absent. -/
abbrev FS : Type := String → Option (List ℕ)

/-- Writing a file (Python `open(out_path, "wb")` plus the chunk loop). -/
def writeFile (fs : FS) (path : String) (body : List ℕ) : FS :=
  fun p => if p = path then some body else fs p

namespace DownloadTiles

/-- The retry loop of `download`: `net` maps the attempt number to the
response of `requests.get` (body bytes, or an exception message).  Returns
the status (`none` models Python falling off the loop and returning `None`),
the file system afterwards, and the number of HTTP requests performed.
A successful response is streamed to the file; an empty file then raises
`IOError`, which the `except` clause treats like a request failure. -/
def downloadAttempts (net : ℕ → Except String (List ℕ)) (out : String) :
    ℕ → ℕ → FS → Option String × FS × ℕ
  | 0, _, fs => (none, fs, 0)
  | remaining + 1, attempt, fs =>
    match net attempt with
    | .ok body =>
      let fs2 := writeFile fs out body
      if body.length = 0 then
        if remaining = 0 then (some "error: Empty file after download", fs2, 1)
        else
          let r := downloadAttempts net out remaining (attempt + 1) fs2
          (r.1, r.2.1, r.2.2 + 1)
      else (some "ok", fs2, 1)
    | .error e =>
      if remaining = 0 then (some ("error: " ++ e), fs, 1)
      else
        let r := downloadAttempts net out remaining (attempt + 1) fs
        (r.1, r.2.1, r.2.2 + 1)

/-- From `scripts/download_tiles.py`, lines 11–35.  The initial
`out_path.parent.mkdir(parents=True, exist_ok=True)` only touches
directories, never file contents, so it leaves the file map unchanged.
If the output file exists with positive size, return `"skip"` before any
request; otherwise run the retry loop (default `retries=3`). -/
def download (net : ℕ → Except String (List ℕ)) (fs : FS) (out : String)
    (retries : ℕ) : Option String × FS × ℕ :=
  if (fs out).isSome ∧ 0 < ((fs out).getD []).length then (some "skip", fs, 0)
  else downloadAttempts net out retries 1 fs

end DownloadTiles

namespace DownloadTilesPre

/-- The retry loop of the `preprocessing/download_tiles.py` copy of
`download` (lines 57–80); the body is line for line the same as in
`scripts/download_tiles.py`, only the `timeout` default differs, which this
model does not observe. -/
def downloadAttempts (net : ℕ → Except String (List ℕ)) (out : String) :
    ℕ → ℕ → FS → Option String × FS × ℕ
  | 0, _, fs => (none, fs, 0)
  | remaining + 1, attempt, fs =>
    match net attempt with
    | .ok body =>
      let fs2 := writeFile fs out body
      if body.length = 0 then
        if remaining = 0 then (some "error: Empty file after download", fs2, 1)
        else
          let r := downloadAttempts net out remaining (attempt + 1) fs2
          (r.1, r.2.1, r.2.2 + 1)
      else (some "ok", fs2, 1)
    | .error e =>
      if remaining = 0 then (some ("error: " ++ e), fs, 1)
      else
        let r := downloadAttempts net out remaining (attempt + 1) fs
        (r.1, r.2.1, r.2.2 + 1)

/-- From `scripts/preprocessing/download_tiles.py`, lines 57–80. -/
def download (net : ℕ → Except String (List ℕ)) (fs : FS) (out : String)
    (retries : ℕ) : Option String × FS × ℕ :=
  if (fs out).isSome ∧ 0 < ((fs out).getD []).length then (some "skip", fs, 0)
  else downloadAttempts net out retries 1 fs

end DownloadTilesPre

/-! ### `scripts/preprocessing/crop_resample_tiles.py`, `main`, lines 74–156 -/

/-- Python `int(q)`: truncation toward zero. -/
def pyInt (q : ℚ) : ℤ := if 0 ≤ q then ⌊q⌋ else ⌈q⌉

namespace CropResample

/-- The command-line arguments `main` uses for the grid computation. -/
structure CropArgs where
  tilesize : ℕ
  overlap : ℕ
  src_res : ℚ
  dst_res : ℚ

/-- Line 75: `tile_ground_size = args.tilesize * args.dst_res`. -/
def tile_ground_size (a : CropArgs) : ℚ := a.tilesize * a.dst_res

/-- Line 76: `stride_ground = (args.tilesize - args.overlap) * args.dst_res`. -/
def stride_ground (a : CropArgs) : ℚ := ((a.tilesize : ℚ) - a.overlap) * a.dst_res

/-- Line 79: `src_tile_size = int(tile_ground_size / args.src_res)`. -/
def src_tile_size (a : CropArgs) : ℤ := pyInt (tile_ground_size a / a.src_res)

/-- Line 80: `src_stride = int(stride_ground / args.src_res)`. -/
def src_stride (a : CropArgs) : ℤ := pyInt (stride_ground a / a.src_res)

/-- Geographic bounds of one source raster (from `get_tile_bounds`). -/
structure TileBounds where
  x_min : ℚ
  y_min : ℚ
  x_max : ℚ
  y_max : ℚ

/-- Lines 119–130: the output name for the patch at pixel offsets
`(x_offset, y_offset)` with loop counters `(idx_i, idx_j)`:
grid coordinates are the LV95 kilometer cell of the patch center, and the
name is `grid_x`, `grid_y`, `idx_i`, `idx_j` joined by underscores. -/
def patchName (a : CropArgs) (b : TileBounds) (x_offset y_offset idx_i idx_j : ℕ) : String :=
  let tile_x_min := b.x_min + (x_offset * a.src_res)
  let tile_y_max := b.y_max - (y_offset * a.src_res)
  let tile_x_center := tile_x_min + (tile_ground_size a / 2)
  let tile_y_center := tile_y_max - (tile_ground_size a / 2)
  let grid_x := pyInt (tile_x_center / 1000)
  let grid_y := pyInt (tile_y_center / 1000)
  toString grid_x ++ "_" ++ toString grid_y ++ "_" ++ toString idx_i ++ "_" ++
    toString idx_j ++ ".tif"

/-- One `while offset + src_tile_size <= limit` loop (lines 115–118 for rows,
118 for columns): emit the counter/offset pairs visited, advancing the offset
by the stride.  The fuel argument is only a structural-recursion device;
`limit + 1` fuel always suffices when the stride is positive (with stride `0`
the Python loop would not terminate at all, see `grid_positions`). -/
def gridLoop (limit S D : ℕ) : ℕ → ℕ → ℕ → List (ℕ × ℕ)
  | 0, _, _ => []
  | fuel + 1, idx, offset =>
    if offset + S ≤ limit then (idx, offset) :: gridLoop limit S D fuel (idx + 1) (offset + D)
    else []

/-- The row loop: `(idx_i, y_offset)` pairs with `y_offset + S <= src_height`. -/
def rowPositions (H S D : ℕ) : List (ℕ × ℕ) := gridLoop H S D (H + 1) 0 0

/-- The column loop: `(idx_j, x_offset)` pairs with `x_offset + S <= src_width`. -/
def colPositions (W S D : ℕ) : List (ℕ × ℕ) := gridLoop W S D (W + 1) 0 0

/-- One attempted output patch of the loop body (lines 119–152): its loop
counters, its source-pixel offsets, its output name, and whether a
`gdal_translate` command is issued (`created = false` exactly when the
output file already exists, in which case the position is skipped and the
existing file is never rewritten). -/
structure PatchAttempt where
  idx_i : ℕ
  idx_j : ℕ
  x_offset : ℕ
  y_offset : ℕ
  name : String
  created : Bool
deriving DecidableEq

/-- The two nested `while` loops over one source raster of `W × H` source
pixels (lines 112–155), with `ex` telling which output files already exist.
Row-major order: outer rows (`idx_i`, `y_offset`), inner columns
(`idx_j`, `x_offset`). -/
def processTile (ex : String → Bool) (a : CropArgs) (b : TileBounds)
    (W H S D : ℕ) : List PatchAttempt :=
  (rowPositions H S D).flatMap fun iy =>
    (colPositions W S D).map fun jx =>
      let n := patchName a b jx.2 iy.2 iy.1 jx.1
      ⟨iy.1, jx.1, jx.2, iy.2, n, !ex n⟩

/-- The per-tile body of `main` with the source tile size and stride the
script computes from the arguments (both are nonnegative for the sensible
argument ranges, matching the `Int.toNat` coercion). -/
def crop_resample_tile (ex : String → Bool) (a : CropArgs) (b : TileBounds)
    (W H : ℕ) : List PatchAttempt :=
  processTile ex a b W H (src_tile_size a).toNat (src_stride a).toNat

end CropResample

/-! ## Lemmas and claim theorems -/

/-! ### Geometry lemmas -/

lemma interArea_nonneg (a b : Rect) : 0 ≤ interArea a b :=
  mul_nonneg (le_max_left 0 _) (le_max_left 0 _)

lemma interArea_le_shapelyArea_left (a b : Rect) : interArea a b ≤ shapelyArea a := by
  unfold interArea shapelyArea
  apply mul_le_mul
  · exact max_le (abs_nonneg _)
      (le_trans (sub_le_sub (min_le_left _ _) (le_max_left _ _)) (le_abs_self _))
  · exact max_le (abs_nonneg _)
      (le_trans (sub_le_sub (min_le_left _ _) (le_max_left _ _)) (le_abs_self _))
  · exact le_max_left 0 _
  · exact abs_nonneg _

lemma interArea_comm (a b : Rect) : interArea a b = interArea b a := by
  unfold interArea
  rw [min_comm a.maxx, max_comm a.minx, min_comm a.maxy, max_comm a.miny]

lemma unionArea_comm (a b : Rect) : unionArea a b = unionArea b a := by
  unfold unionArea
  rw [interArea_comm, add_comm]

lemma interArea_le_unionArea (a b : Rect) : interArea a b ≤ unionArea a b := by
  have h1 := interArea_le_shapelyArea_left a b
  have h2 : interArea a b ≤ shapelyArea b := by
    rw [interArea_comm]; exact interArea_le_shapelyArea_left b a
  unfold unionArea
  linarith

lemma compute_iou_shapely_bounds (b1 b2 : Rect) :
    0 ≤ YoloToShapefile.compute_iou_shapely b1 b2 ∧
      YoloToShapefile.compute_iou_shapely b1 b2 ≤ 1 := by
  unfold YoloToShapefile.compute_iou_shapely
  by_cases h : unionArea b1 b2 > 0
  · rw [if_pos h]
    constructor
    · exact div_nonneg (interArea_nonneg b1 b2) (le_of_lt h)
    · rw [div_le_one h]; exact interArea_le_unionArea b1 b2
  · rw [if_neg h]
    exact ⟨le_refl 0, zero_le_one⟩

/-! ### Claim theorems C1, C3, C4, C8 -/

/-- C1: for every YOLO box and patch grid position, `box_to_global_coords`
with patch size `P` and overlap `V` returns exactly
`(cx*P + col*(P-V), cy*P + row*(P-V), w*P, h*P)`: the patch origin is offset
by the stride `P - V` per grid index and the box size is scaled by `P`. -/
theorem box_to_global_coords_reconciliation (box : YoloBox) (row col : ℤ) (P V : ℚ) :
    FindDupLabels.box_to_global_coords box row col P V =
      (box.cx * P + col * (P - V), box.cy * P + row * (P - V), box.w * P, box.h * P) :=
  rfl

/-- C3: `boxes_are_duplicates` returns `(True, d)` iff the Euclidean center
distance `d = sqrt((cx1-cx2)^2 + (cy1-cy2)^2)` is strictly below the
threshold; the widths and heights of the two boxes never influence the
result, and the returned distance is symmetric in the two boxes. -/
theorem boxes_are_duplicates_center_distance (b1 b2 : ℚ × ℚ × ℚ × ℚ) (thr : ℝ) :
    ((FindDupLabels.boxes_are_duplicates b1 b2 thr).1 ↔
        Real.sqrt (((b1.1 : ℝ) - (b2.1 : ℝ)) ^ 2 + ((b1.2.1 : ℝ) - (b2.2.1 : ℝ)) ^ 2) < thr) ∧
      (FindDupLabels.boxes_are_duplicates b1 b2 thr).2 =
        Real.sqrt (((b1.1 : ℝ) - (b2.1 : ℝ)) ^ 2 + ((b1.2.1 : ℝ) - (b2.2.1 : ℝ)) ^ 2) ∧
      (∀ w1 h1 w2 h2 : ℚ,
        FindDupLabels.boxes_are_duplicates (b1.1, b1.2.1, w1, h1) (b2.1, b2.2.1, w2, h2) thr =
          FindDupLabels.boxes_are_duplicates b1 b2 thr) ∧
      (FindDupLabels.boxes_are_duplicates b2 b1 thr).2 =
        (FindDupLabels.boxes_are_duplicates b1 b2 thr).2 := by
  refine ⟨Iff.rfl, rfl, fun _ _ _ _ => rfl, ?_⟩
  show Real.sqrt _ = Real.sqrt _
  congr 1
  ring

/-- C4: the three textual copies of `compute_iou_shapely` (in
`list_duplicate_pairs.py`, `yolo_to_shapefile.py` and
`analysis/visualize_duplicate_pairs.py`) compute equal results on every pair
of input geometries. -/
theorem compute_iou_shapely_copies_agree (b1 b2 : Rect) :
    ListDupPairs.compute_iou_shapely b1 b2 = YoloToShapefile.compute_iou_shapely b1 b2 ∧
      YoloToShapefile.compute_iou_shapely b1 b2 = VisDupPairs.compute_iou_shapely b1 b2 :=
  ⟨rfl, rfl⟩

/-- C8: `compute_iou_shapely` is total and bounded: on every pair of box
geometries it returns a value in `[0, 1]`; when the union area is not
positive, the guarded branch returns `0.0`, and otherwise intersection over
union cannot exceed `1`.  Stated for both the `list_duplicate_pairs.py` and
the `yolo_to_shapefile.py` copy. -/
theorem compute_iou_shapely_in_unit_interval (b1 b2 : Rect) :
    (0 ≤ ListDupPairs.compute_iou_shapely b1 b2 ∧ ListDupPairs.compute_iou_shapely b1 b2 ≤ 1) ∧
      (0 ≤ YoloToShapefile.compute_iou_shapely b1 b2 ∧
        YoloToShapefile.compute_iou_shapely b1 b2 ≤ 1) ∧
      (¬ unionArea b1 b2 > 0 → YoloToShapefile.compute_iou_shapely b1 b2 = 0) := by
  refine ⟨compute_iou_shapely_bounds b1 b2, compute_iou_shapely_bounds b1 b2, fun h => ?_⟩
  unfold YoloToShapefile.compute_iou_shapely
  rw [if_neg h]

/-- C8 witness: the theorem applied to two concrete overlapping boxes. -/
theorem compute_iou_shapely_in_unit_interval_witness :
    0 ≤ ListDupPairs.compute_iou_shapely ⟨0, 0, 2, 2⟩ ⟨1, 1, 3, 3⟩ ∧
      ListDupPairs.compute_iou_shapely ⟨0, 0, 2, 2⟩ ⟨1, 1, 3, 3⟩ ≤ 1 :=
  (compute_iou_shapely_in_unit_interval ⟨0, 0, 2, 2⟩ ⟨1, 1, 3, 3⟩).1

/-! ### NMS lemmas and claim theorem C2 -/

namespace YoloToShapefile

lemma compute_iou_shapely_comm (a b : Rect) :
    compute_iou_shapely a b = compute_iou_shapely b a := by
  unfold compute_iou_shapely
  rw [unionArea_comm, interArea_comm]

lemma nmsKeep_sublist (t : ℚ) : ∀ l : List Detection, List.Sublist (nmsKeep t l) l := by
  intro l
  induction l using nmsKeep.induct t with
  | case1 =>
    rw [nmsKeep]
  | case2 d rest ih =>
    rw [nmsKeep]
    exact List.Sublist.cons₂ d (ih.trans (List.filter_sublist rest))

lemma nmsKeep_pairwise_iou (t : ℚ) :
    ∀ l : List Detection,
      (nmsKeep t l).Pairwise (fun a b => compute_iou_shapely a.geom b.geom ≤ t) := by
  intro l
  induction l using nmsKeep.induct t with
  | case1 => rw [nmsKeep]; exact List.Pairwise.nil
  | case2 d rest ih =>
    rw [nmsKeep]
    refine List.Pairwise.cons (fun e he => ?_) ih
    have hmem : e ∈ rest.filter fun e => decide (¬ t < compute_iou_shapely d.geom e.geom) :=
      (nmsKeep_sublist t _).mem he
    have := (List.mem_filter.mp hmem).2
    simpa [not_lt] using this

lemma nmsKeep_suppressed (t : ℚ) :
    ∀ l : List Detection, l.Pairwise scoreDesc → ∀ x ∈ l,
      x ∈ nmsKeep t l ∨
        ∃ k ∈ nmsKeep t l, t < compute_iou_shapely k.geom x.geom ∧ x.score ≤ k.score := by
  intro l
  induction l using nmsKeep.induct t with
  | case1 => intro _ x hx; exact absurd hx (List.not_mem_nil x)
  | case2 d rest ih =>
    intro hp x hx
    rw [nmsKeep]
    rcases List.mem_cons.mp hx with hxd | hxrest
    · subst hxd
      exact Or.inl (List.mem_cons_self x _)
    · by_cases hk : t < compute_iou_shapely d.geom x.geom
      · refine Or.inr ⟨d, List.mem_cons_self d _, hk, ?_⟩
        exact (List.pairwise_cons.mp hp).1 x hxrest
      · have hxf : x ∈ rest.filter fun e => decide (¬ t < compute_iou_shapely d.geom e.geom) :=
          List.mem_filter.mpr ⟨hxrest, by simpa using hk⟩
        have hpf :
            (rest.filter fun e => decide (¬ t < compute_iou_shapely d.geom e.geom)).Pairwise
              scoreDesc :=
          ((List.pairwise_cons.mp hp).2).sublist (List.filter_sublist rest)
        rcases ih hpf x hxf with h | ⟨k, hk1, hk2, hk3⟩
        · exact Or.inl (List.mem_cons_of_mem d h)
        · exact Or.inr ⟨k, List.mem_cons_of_mem d hk1, hk2, hk3⟩

lemma nms_sorted_input (gdf : List Detection) :
    (gdf.insertionSort scoreDesc).Pairwise scoreDesc :=
  List.sorted_insertionSort scoreDesc gdf

end YoloToShapefile

/-- C2: `nms_geospatial` (a) keeps only input detections, (b) no two kept
boxes have IoU strictly above the threshold, (c) every dropped box has IoU
strictly above the threshold with some kept box of score at least its own,
(d) kept boxes appear in non-increasing score order, and (e) an empty input
is returned unchanged. -/
theorem nms_geospatial_invariants (gdf : List Detection) (t : ℚ) :
    (∀ d ∈ YoloToShapefile.nms_geospatial gdf t, d ∈ gdf) ∧
      (YoloToShapefile.nms_geospatial gdf t).Pairwise
        (fun a b => YoloToShapefile.compute_iou_shapely a.geom b.geom ≤ t ∧
          YoloToShapefile.compute_iou_shapely b.geom a.geom ≤ t) ∧
      (∀ x ∈ gdf, x ∉ YoloToShapefile.nms_geospatial gdf t →
        ∃ k ∈ YoloToShapefile.nms_geospatial gdf t,
          t < YoloToShapefile.compute_iou_shapely k.geom x.geom ∧ x.score ≤ k.score) ∧
      (YoloToShapefile.nms_geospatial gdf t).Pairwise (fun a b => b.score ≤ a.score) ∧
      (gdf = [] → YoloToShapefile.nms_geospatial gdf t = gdf) := by
  by_cases hempty : gdf.length = 0
  · have h0 : gdf = [] := List.length_eq_zero.mp hempty
    subst h0
    refine ⟨?_, ?_, ?_, ?_, fun _ => rfl⟩ <;>
      simp [YoloToShapefile.nms_geospatial]
  · have hrw : YoloToShapefile.nms_geospatial gdf t =
        YoloToShapefile.nmsKeep t (gdf.insertionSort YoloToShapefile.scoreDesc) := by
      unfold YoloToShapefile.nms_geospatial
      rw [if_neg hempty]
    have hsub : List.Sublist (YoloToShapefile.nms_geospatial gdf t)
        (gdf.insertionSort YoloToShapefile.scoreDesc) := by
      rw [hrw]; exact YoloToShapefile.nmsKeep_sublist t _
    refine ⟨?_, ?_, ?_, ?_, ?_⟩
    · intro d hd
      exact (List.perm_insertionSort YoloToShapefile.scoreDesc gdf).mem_iff.mp (hsub.mem hd)
    · have hbase := YoloToShapefile.nmsKeep_pairwise_iou t
        (gdf.insertionSort YoloToShapefile.scoreDesc)
      rw [hrw]
      exact hbase.imp (fun h => ⟨h, by rwa [YoloToShapefile.compute_iou_shapely_comm]⟩)
    · intro x hx hnx
      have hxs : x ∈ gdf.insertionSort YoloToShapefile.scoreDesc :=
        (List.perm_insertionSort YoloToShapefile.scoreDesc gdf).mem_iff.mpr hx
      have := YoloToShapefile.nmsKeep_suppressed t
        (gdf.insertionSort YoloToShapefile.scoreDesc)
        (YoloToShapefile.nms_sorted_input gdf) x hxs
      rw [hrw]
      rcases this with h | h
      · exact absurd (hrw ▸ h) hnx
      · exact h
    · exact (YoloToShapefile.nms_sorted_input gdf).sublist hsub
    · intro h
      subst h
      simp at hempty

/-- C2 witness: the theorem applied to the empty detection list. -/
theorem nms_geospatial_invariants_witness :
    YoloToShapefile.nms_geospatial ([] : List Detection) 0 = [] :=
  (nms_geospatial_invariants [] 0).2.2.2.2 rfl

/-! ### Crop grid lemmas and claim theorem C5 -/

lemma map_range_succ_shift {α : Type} (f : ℕ → α) (m : ℕ) :
    (List.range (m + 1)).map f = f 0 :: (List.range m).map (fun k => f (k + 1)) := by
  rw [List.range_succ_eq_map, List.map_cons, List.map_map]
  rfl

lemma gridLoop_eq (limit S D : ℕ) (hD : 1 ≤ D) :
    ∀ (fuel idx offset : ℕ), (offset + S ≤ limit → (limit - S - offset) / D + 1 ≤ fuel) →
      CropResample.gridLoop limit S D fuel idx offset =
        (List.range (if offset + S ≤ limit then (limit - S - offset) / D + 1 else 0)).map
          (fun k => (idx + k, offset + k * D)) := by
  intro fuel
  induction fuel with
  | zero =>
    intro idx offset h
    by_cases hoff : offset + S ≤ limit
    · exact absurd (h hoff) (Nat.not_succ_le_zero _)
    · simp [CropResample.gridLoop, hoff]
  | succ fuel ih =>
    intro idx offset h
    by_cases hoff : offset + S ≤ limit
    · by_cases hoff2 : offset + D + S ≤ limit
      · have hdiv : (limit - S - offset) / D = (limit - S - offset - D) / D + 1 :=
          Nat.div_eq_sub_div (by omega) (by omega)
        have hsub : limit - S - offset - D = limit - S - (offset + D) := by omega
        have hfuel : offset + D + S ≤ limit → (limit - S - (offset + D)) / D + 1 ≤ fuel := by
          intro _
          have h1 := h hoff
          rw [hdiv, hsub] at h1
          omega
        have hrec := ih (idx + 1) (offset + D) hfuel
        simp only [CropResample.gridLoop]
        rw [if_pos hoff, hrec, if_pos hoff2, if_pos hoff, hdiv, hsub,
          map_range_succ_shift (fun k => (idx + k, offset + k * D))]
        congr 1
        · simp
        · apply List.map_congr_left
          intro k _
          simp only [Prod.mk.injEq]
          constructor <;> [omega; skip]
          rw [Nat.add_mul, Nat.one_mul]
          omega
      · have hdiv0 : (limit - S - offset) / D = 0 := Nat.div_eq_of_lt (by omega)
        have hrec := ih (idx + 1) (offset + D) (fun h2 => absurd h2 hoff2)
        simp only [CropResample.gridLoop]
        rw [if_pos hoff, hrec, if_neg hoff2, if_pos hoff, hdiv0,
          map_range_succ_shift (fun k => (idx + k, offset + k * D)) 0]
        simp
    · simp [CropResample.gridLoop, hoff]

lemma colPositions_eq (W S D : ℕ) (hD : 1 ≤ D) :
    CropResample.colPositions W S D =
      (List.range (if S ≤ W then (W - S) / D + 1 else 0)).map (fun k => (k, k * D)) := by
  unfold CropResample.colPositions
  rw [gridLoop_eq W S D hD (W + 1) 0 0 ?_]
  · simp
  · intro _
    have := Nat.div_le_self (W - S - 0) D
    omega

lemma processTile_eq (ex : String → Bool) (a : CropResample.CropArgs)
    (b : CropResample.TileBounds) (W H S D : ℕ) (hD : 1 ≤ D) :
    CropResample.processTile ex a b W H S D =
      (List.range (if S ≤ H then (H - S) / D + 1 else 0)).flatMap (fun i =>
        (List.range (if S ≤ W then (W - S) / D + 1 else 0)).map (fun j =>
          let n := CropResample.patchName a b (j * D) (i * D) i j
          ⟨i, j, j * D, i * D, n, !ex n⟩)) := by
  unfold CropResample.processTile
  have hrow : CropResample.rowPositions H S D = CropResample.colPositions H S D := rfl
  rw [hrow, colPositions_eq H S D hD, colPositions_eq W S D hD, List.flatMap_map]
  refine List.flatMap_congr ?_
  intro k _
  rw [List.map_map]
  rfl

lemma processTile_positions (ex : String → Bool) (a : CropResample.CropArgs)
    (b : CropResample.TileBounds) (W H S D : ℕ) (hD : 1 ≤ D) :
    (CropResample.processTile ex a b W H S D).map (fun e => (e.idx_i, e.idx_j)) =
      (List.range (if S ≤ H then (H - S) / D + 1 else 0)) ×ˢ
        (List.range (if S ≤ W then (W - S) / D + 1 else 0)) := by
  rw [processTile_eq ex a b W H S D hD, List.map_flatMap]
  show _ = (List.range (if S ≤ H then (H - S) / D + 1 else 0)).flatMap fun i =>
    (List.range (if S ≤ W then (W - S) / D + 1 else 0)).map (Prod.mk i)
  refine List.flatMap_congr ?_
  intro k _
  rw [List.map_map]
  rfl

lemma range_count_iff (n i S D limit : ℕ) (hD : 1 ≤ D)
    (hn : n = if S ≤ limit then (limit - S) / D + 1 else 0) :
    i ∈ List.range n ↔ i * D + S ≤ limit := by
  rw [List.mem_range, hn]
  by_cases hle : S ≤ limit
  · rw [if_pos hle]
    rw [Nat.lt_succ_iff, Nat.le_div_iff_mul_le hD]
    omega
  · rw [if_neg hle]
    simp
    omega

/-- C5: the cropping grid of `crop_resample_tiles.py`: the script uses source
tile size `S = int(tilesize*dst_res/src_res)` and source stride
`D = int((tilesize-overlap)*dst_res/src_res)`; it attempts exactly one output
patch for each grid position `(i, j)` with `j*D + S ≤ W` and `i*D + S ≤ H`
(membership plus no duplicate positions), each named from the patch center
grid cell and its loop counters with offsets `j*D`, `i*D`; when `S ≤ W` and
`S ≤ H` the number of attempted positions is
`((W-S)/D + 1) * ((H-S)/D + 1)`; and a position whose output file already
exists is skipped (no `gdal_translate` issued), not overwritten. -/
theorem crop_resample_grid (ex : String → Bool) (a : CropResample.CropArgs)
    (b : CropResample.TileBounds) (W H S D : ℕ)
    (hS : (S : ℤ) = CropResample.src_tile_size a)
    (hD : (D : ℤ) = CropResample.src_stride a)
    (hD1 : 1 ≤ D) :
    (CropResample.src_tile_size a = pyInt ((a.tilesize * a.dst_res) / a.src_res) ∧
      CropResample.src_stride a =
        pyInt ((((a.tilesize : ℚ) - a.overlap) * a.dst_res) / a.src_res)) ∧
      (∀ i j : ℕ,
        (i, j) ∈ (CropResample.processTile ex a b W H S D).map
            (fun e => (e.idx_i, e.idx_j)) ↔
          j * D + S ≤ W ∧ i * D + S ≤ H) ∧
      ((CropResample.processTile ex a b W H S D).map (fun e => (e.idx_i, e.idx_j))).Nodup ∧
      (∀ e ∈ CropResample.processTile ex a b W H S D,
        e.x_offset = e.idx_j * D ∧ e.y_offset = e.idx_i * D ∧
        e.name = CropResample.patchName a b e.x_offset e.y_offset e.idx_i e.idx_j ∧
        e.created = !ex e.name) ∧
      (S ≤ W → S ≤ H →
        (CropResample.processTile ex a b W H S D).length =
          ((W - S) / D + 1) * ((H - S) / D + 1)) ∧
      CropResample.crop_resample_tile ex a b W H =
        CropResample.processTile ex a b W H S D := by
  have hSnat : (CropResample.src_tile_size a).toNat = S := by
    rw [← hS]
    exact Int.toNat_natCast S
  have hDnat : (CropResample.src_stride a).toNat = D := by
    rw [← hD]
    exact Int.toNat_natCast D
  refine ⟨⟨rfl, rfl⟩, ?_, ?_, ?_, ?_, ?_⟩
  · intro i j
    rw [processTile_positions ex a b W H S D hD1, List.mem_product,
      range_count_iff _ i S D H hD1 rfl, range_count_iff _ j S D W hD1 rfl]
    exact and_comm
  · rw [processTile_positions ex a b W H S D hD1]
    exact List.Nodup.product (List.nodup_range _) (List.nodup_range _)
  · intro e he
    rw [processTile_eq ex a b W H S D hD1] at he
    rw [List.mem_flatMap] at he
    obtain ⟨i, _, he⟩ := he
    rw [List.mem_map] at he
    obtain ⟨j, _, he⟩ := he
    subst he
    exact ⟨rfl, rfl, rfl, rfl⟩
  · intro hW hH
    have := congrArg List.length (processTile_positions ex a b W H S D hD1)
    rw [List.length_map, List.length_product, List.length_range, List.length_range,
      if_pos hW, if_pos hH] at this
    rw [this]
    exact Nat.mul_comm _ _
  · unfold CropResample.crop_resample_tile
    rw [hSnat, hDnat]

/-- C5 witness: with `tilesize=1`, `overlap=0`, `src_res=dst_res=1` the
hypotheses hold with `S = D = 1`, and the theorem applies. -/
theorem crop_resample_grid_witness :
    (((1 : ℕ) : ℤ) = CropResample.src_tile_size ⟨1, 0, 1, 1⟩ ∧
      ((1 : ℕ) : ℤ) = CropResample.src_stride ⟨1, 0, 1, 1⟩ ∧ (1 : ℕ) ≤ 1) ∧
      CropResample.crop_resample_tile (fun _ => false) ⟨1, 0, 1, 1⟩ ⟨0, 0, 1, 1⟩ 5 5 =
        CropResample.processTile (fun _ => false) ⟨1, 0, 1, 1⟩ ⟨0, 0, 1, 1⟩ 5 5 1 1 :=
  ⟨⟨by simp [CropResample.src_tile_size, CropResample.tile_ground_size, pyInt],
    by simp [CropResample.src_stride, CropResample.stride_ground, pyInt],
    le_refl 1⟩,
    (crop_resample_grid (fun _ => false) ⟨1, 0, 1, 1⟩ ⟨0, 0, 1, 1⟩ 5 5 1 1
      (by simp [CropResample.src_tile_size, CropResample.tile_ground_size, pyInt])
      (by simp [CropResample.src_stride, CropResample.stride_ground, pyInt])
      (le_refl 1)).2.2.2.2.2⟩

/-! ### Categorization lemmas and claim theorem C6 -/

lemma catOf_emptyCat (c : ℕ) : AnalyzeDist.catOf c = .emptyCat ↔ c = 0 := by
  unfold AnalyzeDist.catOf
  split_ifs <;> simp_all

lemma catOf_sparse (c : ℕ) : AnalyzeDist.catOf c = .sparse ↔ 1 ≤ c ∧ c ≤ 3 := by
  unfold AnalyzeDist.catOf
  split_ifs <;> simp_all <;> omega

lemma catOf_medium (c : ℕ) : AnalyzeDist.catOf c = .medium ↔ 4 ≤ c ∧ c ≤ 10 := by
  unfold AnalyzeDist.catOf
  split_ifs <;> simp_all <;> omega

lemma catOf_dense (c : ℕ) : AnalyzeDist.catOf c = .dense ↔ 11 ≤ c := by
  unfold AnalyzeDist.catOf
  split_ifs <;> simp_all <;> omega

lemma categorize_foldl (rc : List (String × ℕ)) : ∀ cats : Categories,
    (rc.foldl (fun cats p => AnalyzeDist.addToCategory cats p.1 p.2) cats) =
      ⟨cats.emptyCat ++
          (rc.filter fun p => decide (AnalyzeDist.catOf p.2 = .emptyCat)).map Prod.fst,
        cats.sparse ++
          (rc.filter fun p => decide (AnalyzeDist.catOf p.2 = .sparse)).map Prod.fst,
        cats.medium ++
          (rc.filter fun p => decide (AnalyzeDist.catOf p.2 = .medium)).map Prod.fst,
        cats.dense ++
          (rc.filter fun p => decide (AnalyzeDist.catOf p.2 = .dense)).map Prod.fst⟩ := by
  induction rc with
  | nil => intro cats; simp
  | cons p rest ih =>
    intro cats
    rw [List.foldl_cons, ih]
    rcases h : AnalyzeDist.catOf p.2 <;>
      simp [AnalyzeDist.addToCategory, h, List.filter_cons]

lemma countP_cat_partition (rc : List (String × ℕ)) :
    (rc.filter fun p => decide (AnalyzeDist.catOf p.2 = .emptyCat)).length +
        (rc.filter fun p => decide (AnalyzeDist.catOf p.2 = .sparse)).length +
        (rc.filter fun p => decide (AnalyzeDist.catOf p.2 = .medium)).length +
        (rc.filter fun p => decide (AnalyzeDist.catOf p.2 = .dense)).length = rc.length := by
  induction rc with
  | nil => simp
  | cons p rest ih =>
    rcases h : AnalyzeDist.catOf p.2 <;>
      simp [List.filter_cons, h] <;> omega

/-- C6: `categorize_images` assigns each image to exactly one category —
empty iff the count is `0`, sparse iff it is between `1` and `3`, medium iff
between `4` and `10`, dense iff `11` or more — so the four category sizes sum
to the number of images, and the `create_augmented_dataset.py` main loop
derives its per-image augmentation factor from the same thresholds. -/
theorem categorize_images_partition (rc : List (String × ℕ)) :
    ((AnalyzeDist.categorize_images rc).emptyCat =
        (rc.filter fun p => decide (p.2 = 0)).map Prod.fst) ∧
      ((AnalyzeDist.categorize_images rc).sparse =
        (rc.filter fun p => decide (1 ≤ p.2 ∧ p.2 ≤ 3)).map Prod.fst) ∧
      ((AnalyzeDist.categorize_images rc).medium =
        (rc.filter fun p => decide (4 ≤ p.2 ∧ p.2 ≤ 10)).map Prod.fst) ∧
      ((AnalyzeDist.categorize_images rc).dense =
        (rc.filter fun p => decide (11 ≤ p.2)).map Prod.fst) ∧
      ((AnalyzeDist.categorize_images rc).emptyCat.length +
          (AnalyzeDist.categorize_images rc).sparse.length +
          (AnalyzeDist.categorize_images rc).medium.length +
          (AnalyzeDist.categorize_images rc).dense.length = rc.length) ∧
      (∀ c : ℕ, (CreateAug.augFactorAssignment c).1 = AnalyzeDist.catOf c) := by
  have hfold := categorize_foldl rc ⟨[], [], [], []⟩
  have hrw : AnalyzeDist.categorize_images rc =
      ⟨(rc.filter fun p => decide (AnalyzeDist.catOf p.2 = .emptyCat)).map Prod.fst,
        (rc.filter fun p => decide (AnalyzeDist.catOf p.2 = .sparse)).map Prod.fst,
        (rc.filter fun p => decide (AnalyzeDist.catOf p.2 = .medium)).map Prod.fst,
        (rc.filter fun p => decide (AnalyzeDist.catOf p.2 = .dense)).map Prod.fst⟩ := by
    unfold AnalyzeDist.categorize_images
    rw [hfold]
    simp
  refine ⟨?_, ?_, ?_, ?_, ?_, ?_⟩
  · rw [hrw]
    exact congrArg _ (List.filter_congr (fun p _ => by simp [catOf_emptyCat]))
  · rw [hrw]
    exact congrArg _ (List.filter_congr (fun p _ => by simp [catOf_sparse]))
  · rw [hrw]
    exact congrArg _ (List.filter_congr (fun p _ => by simp [catOf_medium]))
  · rw [hrw]
    exact congrArg _ (List.filter_congr (fun p _ => by simp [catOf_dense]))
  · rw [hrw]
    simp only [List.length_map]
    exact countP_cat_partition rc
  · intro c
    unfold CreateAug.augFactorAssignment AnalyzeDist.catOf
    split_ifs <;> rfl

/-! ### Claim theorem C9 (parse_patch_name) -/

/-- C9 counterexample: `parse_patch_name` raises `ValueError` (modelled as
`Except.error ()`) on the filename `x_y_a_b.txt`, because `int('a')` raises;
so it is not total on all filenames. -/
theorem parse_patch_name_not_total :
    FindDupLabels.parse_patch_name ("x_y_a_b.txt".toList) = Except.error () := by decide

/-- C9 (amended): after stripping `.txt`/`.tif` and splitting on `_`,
`parse_patch_name` returns the `(None, None, None)` triple when fewer than 4
parts result; with at least 4 parts it returns the first two parts joined by
`_` together with `int(parts[2])` and `int(parts[3])` whenever both convert,
and it raises `ValueError` exactly when at least 4 parts result and one of
the third and fourth parts is not an integer literal. -/
theorem parse_patch_name_conditional_total (filename : List Char) :
    ((FindDupLabels.patchParts filename).length < 4 →
      FindDupLabels.parse_patch_name filename = .ok .noneTriple) ∧
      (∀ r c : ℤ,
        4 ≤ (FindDupLabels.patchParts filename).length →
        pyIntOfString ((FindDupLabels.patchParts filename).getD 2 []) = some r →
        pyIntOfString ((FindDupLabels.patchParts filename).getD 3 []) = some c →
        FindDupLabels.parse_patch_name filename =
          .ok (.parsed ((FindDupLabels.patchParts filename).getD 0 [] ++
            '_' :: (FindDupLabels.patchParts filename).getD 1 []) r c)) ∧
      (FindDupLabels.parse_patch_name filename = .error () ↔
        4 ≤ (FindDupLabels.patchParts filename).length ∧
          (pyIntOfString ((FindDupLabels.patchParts filename).getD 2 []) = none ∨
            pyIntOfString ((FindDupLabels.patchParts filename).getD 3 []) = none)) := by
  have hun : FindDupLabels.parse_patch_name filename =
      (if 4 ≤ (FindDupLabels.patchParts filename).length then
        match pyIntOfString ((FindDupLabels.patchParts filename).getD 2 []),
            pyIntOfString ((FindDupLabels.patchParts filename).getD 3 []) with
        | some row, some col =>
          Except.ok (.parsed ((FindDupLabels.patchParts filename).getD 0 [] ++
            '_' :: (FindDupLabels.patchParts filename).getD 1 []) row col)
        | _, _ => Except.error ()
      else Except.ok .noneTriple) := rfl
  by_cases hlen : 4 ≤ (FindDupLabels.patchParts filename).length
  · rcases h2 : pyIntOfString ((FindDupLabels.patchParts filename).getD 2 []) with _ | r
    · refine ⟨fun h => absurd hlen (not_le.mpr h), fun r c _ hr _ => ?_, ?_⟩
      · exact absurd hr (by simp)
      · rw [hun, if_pos hlen, h2]
        simp [hlen, h2]
    · rcases h3 : pyIntOfString ((FindDupLabels.patchParts filename).getD 3 []) with _ | c
      · refine ⟨fun h => absurd hlen (not_le.mpr h), fun r c _ _ hc => ?_, ?_⟩
        · exact absurd hc (by simp)
        · rw [hun, if_pos hlen, h2, h3]
          simp [hlen, h3]
      · refine ⟨fun h => absurd hlen (not_le.mpr h), fun r0 c0 _ hr hc => ?_, ?_⟩
        · rw [Option.some_inj] at hr hc
          subst hr
          subst hc
          rw [hun, if_pos hlen, h2, h3]
        · rw [hun, if_pos hlen, h2, h3]
          simp
  · refine ⟨fun _ => ?_, fun r c h => absurd h hlen, ?_⟩
    · rw [hun, if_neg hlen]
    · rw [hun, if_neg hlen]
      simp [hlen]

/-- C9 witness: the amended theorem applied to the well-formed filename
`2587_1133_0_3.txt` from the docstring. -/
theorem parse_patch_name_conditional_total_witness :
    FindDupLabels.parse_patch_name ("2587_1133_0_3.txt".toList) =
      .ok (.parsed ("2587_1133".toList) 0 3) := by
  have h := (parse_patch_name_conditional_total ("2587_1133_0_3.txt".toList)).2.1 0 3
    (by decide) (by decide) (by decide)
  rw [h]
  decide

/-! ### Claim theorem C7 (deterministic duplicate scan) -/

/-- C7: the duplicate-finding computation is deterministic: it is a pure
function of the label-file contents (boxes and patch positions), so two runs
over the same inputs produce the same duplicate records — same pairs, same
distances.  The embedding of `main` is a sequential fold with no other
state, mirroring the single-threaded scripts. -/
theorem find_duplicates_two_runs (t1 t2 : List (String × List Patch)) (h : t1 = t2) :
    FindDupLabels.findDuplicatesFromLabels t1 = FindDupLabels.findDuplicatesFromLabels t2 := by
  rw [h]

/-- C7 witness: the theorem applied to a concrete (empty) run. -/
theorem find_duplicates_two_runs_witness :
    FindDupLabels.findDuplicatesFromLabels [] = FindDupLabels.findDuplicatesFromLabels [] :=
  find_duplicates_two_runs [] [] rfl

/-! ### Claim theorem C10 (download skip idempotence) -/

/-- C10: in both downloader scripts, when the output file already exists with
size strictly greater than `0`, `download` returns `"skip"`, performs no
HTTP request (request count `0`), and leaves the file system — in particular
the existing file's contents — unchanged. -/
theorem download_skip_before_request (net : ℕ → Except String (List ℕ)) (fs : FS)
    (out : String) (retries : ℕ) (h : ∃ b, fs out = some b ∧ 0 < b.length) :
    DownloadTiles.download net fs out retries = (some "skip", fs, 0) ∧
      DownloadTilesPre.download net fs out retries = (some "skip", fs, 0) := by
  obtain ⟨b, hb, hlen⟩ := h
  have hcond : (fs out).isSome ∧ 0 < ((fs out).getD []).length := by
    rw [hb]
    exact ⟨rfl, by simpa using hlen⟩
  constructor
  · unfold DownloadTiles.download
    rw [if_pos hcond]
  · unfold DownloadTilesPre.download
    rw [if_pos hcond]

/-- C10 witness: a file system holding a one-byte file at the output path. -/
theorem download_skip_before_request_witness :
    DownloadTiles.download (fun _ => .error "down")
        (fun p => if p = "tile.tif" then some [7] else none) "tile.tif" 3 =
        (some "skip", (fun p => if p = "tile.tif" then some [7] else none), 0) ∧
      DownloadTilesPre.download (fun _ => .error "down")
        (fun p => if p = "tile.tif" then some [7] else none) "tile.tif" 3 =
        (some "skip", (fun p => if p = "tile.tif" then some [7] else none), 0) :=
  download_skip_before_request _ _ _ _ ⟨[7], by decide, by decide⟩

end RockDetect
